import Mathlib

/-!
Shallow embedding of the translation-job pipeline of
`src/backend/routes/translatorRoutes.js` (the current revision: the worker
`processTranslationJob`, the `/api/translator/start` job-creation handler and
the glossary upsert endpoints), together with the schema defaults of
`src/backend/models/translationJob.model.js`.

External effects (MongoDB job/novel/glossary records, the Firestore content
store, the LLM provider, and external status writes by pause/cancel actors)
are modelled as explicit state and per-iteration environment inputs.  The LLM
provider and failure injection points are oracles supplied as inputs; the
worker itself is a deterministic function of them.

JavaScript iteration detail that the model must capture: the worker iterates
`for (const chapterNum of chaptersToProcess)` and, on a rate-limit error,
executes `chaptersToProcess.unshift(chapterNum)`.  The array iterator holds a
numeric index k; after consuming `arr[k-1] = v`, an `unshift` shifts every
element right by one, so the next `next()` call reads `arr[k] = v` again and
the subsequent elements are exactly the old suffix `arr[k..]`.  Hence the
remaining work is faithfully represented by a worklist `rest : List Int`
where `unshift`-retry puts the same chapter number back at the head.
-/

/-- Log entry kinds, per the `logs.type` enum of `translationJob.model.js`. -/
inductive LogType
  | info
  | success
  | error
  | warning
deriving DecidableEq, Repr

/-- One entry of a job's append-only log. -/
structure LogEntry where
  message : String
  type : LogType
deriving DecidableEq, Repr

/-- Job status, per the `status` enum of `translationJob.model.js`. -/
inductive JobStatus
  | active
  | paused
  | completed
  | failed
deriving DecidableEq, Repr

/-- A `TranslationJob` record (the fields the pipeline reads or writes).
`lastUpdate` is modelled as a logical tick instead of wall-clock time. -/
structure Job where
  novelId : Nat
  targetChapters : List Int
  totalToTranslate : Nat
  translatedCount : Nat
  currentChapter : Int
  status : JobStatus
  logs : List LogEntry
  apiKeys : List String
  lastUpdate : Nat
deriving DecidableEq, Repr

/-- Chapter metadata owned by the Novel aggregate (`number`, `title`). -/
structure Chapter where
  number : Int
  title : String
deriving DecidableEq, Repr

/-- The target novel record (the fields the pipeline reads or writes). -/
structure Novel where
  id : Nat
  chapters : List Chapter
deriving DecidableEq, Repr

/-- One glossary document, per the fields used in `translatorRoutes.js`. -/
structure GlossaryEntry where
  novelId : Nat
  term : String
  translation : String
  autoGenerated : Bool
deriving DecidableEq, Repr

/-- Result of one LLM `generateContent` call: resolved text, or a rejection
whose error message the orchestrator pattern-matches. -/
inductive LlmResult
  | ok (text : String)
  | err (msg : String)
deriving DecidableEq, Repr

/-- One candidate term object from the extraction JSON.  A missing or
non-truthy `term`/`translation` field is modelled as the empty string,
matching the JS truthiness test `termObj.term && termObj.translation`. -/
structure RawTerm where
  term : String
  translation : String
deriving DecidableEq, Repr

/-- Outcome of the extraction call plus `JSON.parse`: either parsed JSON
(whose `newTerms` field may be absent), or a thrown error (LLM rejection or
parse failure). -/
inductive ExtractResult
  | ok (newTerms : Option (List RawTerm))
  | err (msg : String)
deriving DecidableEq, Repr

/-- Environment for one loop iteration: what the external world does at each
suspension point of the chapter body.
`extStatus = some st` means an external actor (pause/cancel) wrote `st` to
the job record before the orchestrator re-fetches it.
`upsertFail = some m` means the first attempted glossary `updateOne` rejects
with message `m` (a Mongo error); `saveFail = some m` means the Firestore
content `set` rejects with message `m` (both the main save and the fallback
save, since they hit the same store). -/
structure ChapterEnv where
  extStatus : Option JobStatus
  transResult : LlmResult
  extractResult : ExtractResult
  upsertFail : Option String
  saveFail : Option String
deriving DecidableEq, Repr

/-- `String.prototype.includes`: substring test, case-sensitive. -/
def strContains (s sub : String) : Bool :=
  decide (sub.toList <:+: s.toList)

/-- `!sourceContent || sourceContent.trim().length === 0`: a string whose
trim is empty is exactly a string all of whose characters are whitespace
(the empty string included). -/
def isBlank (s : String) : Bool :=
  s.toList.all (fun c => c.isWhitespace)

/-- Firestore read of a chapter document of the novel's `chapters`
subcollection: `docSnap.exists ? (data.content || "") : ""`. -/
def storeGet (cs : List (Int × String)) (n : Int) : String :=
  match cs.find? (fun p => p.1 == n) with
  | some p => p.2
  | none => ""

/-- Firestore `set` with `merge: true` on the chapter document: overwrite the
`content` field, creating the document if absent (document ids are unique). -/
def storeSet (cs : List (Int × String)) (n : Int) (content : String) :
    List (Int × String) :=
  if cs.any (fun p => p.1 == n) then
    cs.map (fun p => if p.1 == n then (n, content) else p)
  else cs ++ [(n, content)]

/-- MongoDB positional update
`Novel.findOneAndUpdate({_id, "chapters.number": n}, {$set: {"chapters.$.title": t}})`:
sets the title of the first array element whose `number` matches; no-op when
none matches. -/
def setChapterTitle (chs : List Chapter) (n : Int) (t : String) : List Chapter :=
  match chs with
  | [] => []
  | c :: rest =>
    if c.number == n then { c with title := t } :: rest
    else c :: setChapterTitle rest n t

/-- First chapter metadata title for a given number (Mongo natural order). -/
def getTitle (chs : List Chapter) (n : Int) : Option String :=
  (chs.find? (fun c => c.number == n)).map (fun c => c.title)

/-- Whether a glossary document matches the filter `{novelId, term}` —
MongoDB equality on the term text is exact and case-sensitive. -/
def glossMatches (nid : Nat) (t : String) (e : GlossaryEntry) : Bool :=
  e.novelId == nid && e.term == t

/-- The first glossary document matching `{novelId, term}`. -/
def glossFind (g : List GlossaryEntry) (nid : Nat) (t : String) :
    Option GlossaryEntry :=
  g.find? (glossMatches nid t)

/-- Pipeline upsert (lines 177–184 of `translatorRoutes.js`):
`Glossary.updateOne({novelId, term}, {$set: {translation}, $setOnInsert: {autoGenerated: true}}, {upsert: true})`.
`updateOne` modifies the first matching document only; with no match the
upsert inserts filter fields + `$set` + `$setOnInsert`. -/
def upsertAuto (g : List GlossaryEntry) (nid : Nat) (t tr : String) :
    List GlossaryEntry :=
  match g with
  | [] => [{ novelId := nid, term := t, translation := tr, autoGenerated := true }]
  | e :: rest =>
    if glossMatches nid t e then { e with translation := tr } :: rest
    else e :: upsertAuto rest nid t tr

/-- Manual endpoint upsert (`POST /api/translator/glossary`, lines 400–404):
`Glossary.findOneAndUpdate({novelId, term}, {translation, autoGenerated: false}, {new: true, upsert: true})`
— Mongoose treats the bare update object as `$set`, so an existing entry gets
both `translation` and `autoGenerated := false`. -/
def upsertManual (g : List GlossaryEntry) (nid : Nat) (t tr : String) :
    List GlossaryEntry :=
  match g with
  | [] => [{ novelId := nid, term := t, translation := tr, autoGenerated := false }]
  | e :: rest =>
    if glossMatches nid t e then
      { e with translation := tr, autoGenerated := false } :: rest
    else e :: upsertManual rest nid t tr

/-- Fold the pipeline upserts of one extraction result over the store,
skipping term objects with a falsy `term` or `translation`. -/
def upsertTerms (g : List GlossaryEntry) (nid : Nat) : List RawTerm → List GlossaryEntry
  | [] => g
  | t :: rest => upsertTerms (upsertAuto g nid t.term t.translation) nid rest

/-- In-flight state of one worker run: the shared mutable records it touches
plus observation counters used only by the verification (LLM calls made,
Firestore content fetches, order of chapters iterated, delays requested,
logical clock for `lastUpdate`). -/
structure WorkerState where
  nid : Nat
  job : Job
  chapters : List Chapter
  glossary : List GlossaryEntry
  contentStore : List (Int × String)
  keyIndex : Nat
  llmCalls : Nat
  contentFetches : Nat
  processedOrder : List Int
  delays : List Nat
  tick : Nat
deriving DecidableEq, Repr

/-- `pushLog(jobId, message, type)`: append one log entry to the job. -/
def pushLog (s : WorkerState) (msg : String) (t : LogType) : WorkerState :=
  { s with job := { s.job with logs := s.job.logs ++ [⟨msg, t⟩] } }

/-- What one loop iteration tells the loop to do next: `broke` is the
`break` on a non-active status, `retry` is the rate-limit
`unshift`-and-`continue`, `next` is every other path. -/
inductive StepKind
  | broke
  | next
  | retry
deriving DecidableEq, Repr

/-- The `catch` block at lines 221–244: if a translation text exists, fall
back to persisting content and the placeholder title with a warning log
(or an error log when even the fallback save rejects); otherwise log an
error.  `translatedCount` is not touched on this path. -/
def handleCatch (s : WorkerState) (n : Int) (translatedText : String)
    (msg : String) (saveFail : Option String) : WorkerState :=
  if translatedText ≠ "" then
    match saveFail with
    | some m2 => pushLog s ("❌ فشل الحفظ النهائي: " ++ m2) LogType.error
    | none =>
      let s := { s with contentStore := storeSet s.contentStore n translatedText }
      let s := { s with chapters := setChapterTitle s.chapters n ("الفصل " ++ toString n) }
      pushLog s ("⚠️ تم حفظ الترجمة (فشل الاستخراج): " ++ msg) LogType.warning
  else
    pushLog s ("❌ فشل العملية: " ++ msg) LogType.error

/-- Steps B–D of the success path (lines 191–219): Firestore content save
(whose rejection is rethrown and lands in the catch fallback), targeted
metadata title update, job progress update (`$inc translatedCount`,
`$set currentChapter/lastUpdate`), success log. -/
def stepPersist (s : WorkerState) (n : Int) (translatedText : String)
    (saveFail : Option String) : WorkerState :=
  match saveFail with
  | some m =>
    handleCatch s n translatedText ("فشل الحفظ في Firestore: " ++ m) (some m)
  | none =>
    let s := { s with contentStore := storeSet s.contentStore n translatedText }
    let s := { s with chapters := setChapterTitle s.chapters n ("الفصل " ++ toString n) }
    let s := { s with tick := s.tick + 1 }
    let s := { s with job := { s.job with
      translatedCount := s.job.translatedCount + 1,
      currentChapter := n,
      lastUpdate := s.tick } }
    pushLog s ("🎉 تم إنجاز الفصل " ++ toString n ++ " وحفظه في السيرفر") LogType.success

/-- Lines 145–244 for a chapter whose Translation Stage call resolved with
`translatedText`: extraction call, term upserts, Firestore content save,
metadata title update, job progress update — with the `catch` fallback —
followed by the bottom-of-loop `delay(2000)`.  An injected upsert rejection
is modelled as striking the first attempted `updateOne` (when no `updateOne`
is attempted, nothing can reject). -/
def afterTranslationOk (cenv : ChapterEnv) (n : Int) (s : WorkerState)
    (translatedText : String) : WorkerState :=
  -- STEP 2: extraction call (key rotated first, line 151)
  let s := pushLog s "2️⃣ جاري استخراج المصطلحات..." LogType.info
  let s := { s with keyIndex := s.keyIndex + 1, llmCalls := s.llmCalls + 1 }
  let core : WorkerState :=
    match cenv.extractResult with
    | ExtractResult.err msg => handleCatch s n translatedText msg cenv.saveFail
    | ExtractResult.ok newTerms =>
      -- A. save terms: iterate jsonExt.newTerms, skipping falsy fields
      let validTerms : List RawTerm := (newTerms.getD []).filter
        (fun t => t.term ≠ "" && t.translation ≠ "")
      match cenv.upsertFail with
      | some m =>
        if validTerms.isEmpty then stepPersist s n translatedText cenv.saveFail
        else handleCatch s n translatedText m cenv.saveFail
      | none =>
        let s := { s with glossary := upsertTerms s.glossary s.nid validTerms }
        let s := if validTerms.length > 0 then
            pushLog s ("✅ تم إضافة/تحديث " ++ toString validTerms.length ++ " مصطلح للمسرد")
              LogType.success
          else s
        stepPersist s n translatedText cenv.saveFail
  { core with delays := core.delays ++ [2000] }

/-- One iteration of the chapter loop (lines 65–247 of
`translatorRoutes.js`), for chapter `n` under environment `cenv`.  Note the
rate-limit path and the three skip paths `continue` before reaching the
bottom-of-loop `delay(2000)`, so only the success and catch paths record it. -/
def processChapter (cenv : ChapterEnv) (n : Int) (s : WorkerState) :
    StepKind × WorkerState :=
  -- external pause/cancel writes land before the status re-fetch
  let s := match cenv.extStatus with
    | some st => { s with job := { s.job with status := st } }
    | none => s
  if s.job.status ≠ JobStatus.active then (StepKind.broke, s)
  else
    let s := { s with processedOrder := s.processedOrder ++ [n] }
    -- freshNovel.chapters.findIndex(c => c.number === chapterNum): the code
    -- only tests it against -1, which is find? returning none
    match s.chapters.find? (fun c => c.number == n) with
    | none =>
      (StepKind.next,
        pushLog s ("فصل " ++ toString n ++ " غير موجود في الفهرس") LogType.warning)
    | some _ =>
      -- STEP 0: fetch source content from Firestore (a fetch error leaves
      -- sourceContent empty, which the next check treats as missing content)
      let s := { s with contentFetches := s.contentFetches + 1 }
      let sourceContent := storeGet s.contentStore n
      if isBlank sourceContent then
        (StepKind.next,
          pushLog s ("تخطي الفصل " ++ toString n ++ ": المحتوى غير موجود في السيرفر (Firestore)")
            LogType.warning)
      else
        -- glossary read + prompt serialization (feeds the LLM call only)
        let _glossaryText := String.intercalate ",\n"
          (((s.glossary.filter (fun g => g.novelId == s.nid)).map
            (fun g => "\"" ++ g.term ++ "\": \"" ++ g.translation ++ "\"")))
        -- STEP 1: translation call
        let s := pushLog s ("1️⃣ جاري ترجمة الفصل " ++ toString n ++ "...") LogType.info
        let s := { s with llmCalls := s.llmCalls + 1 }
        match cenv.transResult with
        | LlmResult.err msg =>
          if strContains msg "429" || strContains msg "quota" then
            let s := { s with keyIndex := s.keyIndex + 1 }
            let s := pushLog s "⚠️ ضغط على المفتاح، تبديل وإعادة المحاولة..." LogType.warning
            let s := { s with delays := s.delays ++ [5000] }
            (StepKind.retry, s)
          else
            (StepKind.next,
              pushLog s ("❌ فشل الترجمة للفصل " ++ toString n ++ ": " ++ msg) LogType.error)
        | LlmResult.ok translatedText =>
          (StepKind.next, afterTranslationOk cenv n s translatedText)

/-- Result of running the chapter loop: final state, whether the loop itself
ended (chapter worklist exhausted or `break`), and the state after each
iteration.  `finished = false` only when the supplied per-iteration
environment list ran out with work remaining — a model fuel cutoff, not a
behaviour of the code. -/
structure LoopResult where
  state : WorkerState
  finished : Bool
  trace : List WorkerState
deriving DecidableEq, Repr

/-- The chapter loop itself, as a worklist recursion (see the header comment
for why this is exactly the JS `for...of` + `unshift` semantics). -/
def runLoop : List ChapterEnv → List Int → WorkerState → LoopResult
  | _, [], s => ⟨s, true, []⟩
  | [], _ :: _, s => ⟨s, false, []⟩
  | cenv :: envs, n :: rest, s =>
    match processChapter cenv n s with
    | (StepKind.broke, t) => ⟨t, true, [t]⟩
    | (StepKind.next, t) =>
      let r := runLoop envs rest t
      ⟨r.state, r.finished, t :: r.trace⟩
    | (StepKind.retry, t) =>
      let r := runLoop envs (n :: rest) t
      ⟨r.state, r.finished, t :: r.trace⟩

/-- `job.targetChapters.sort((a, b) => a - b)`: ascending numeric sort.
Sorted permutations agree on lists of integers, so any correct sort models
the JS engine's. -/
def sortChapters (l : List Int) : List Int :=
  List.insertionSort (fun a b => a ≤ b) l

/-- `job.apiKeys` when non-empty, else `settings?.translatorApiKeys || []`
(line 45). -/
def effectiveKeys (job : Job) (settingsKeys : List String) : List String :=
  if job.apiKeys.isEmpty then settingsKeys else job.apiKeys

/-- The external world the worker touches: the job record as found by id
(`none` when deleted), the target novel, the glossary collection and the
Firestore content store of that novel. -/
structure World where
  job : Option Job
  novel : Option Novel
  glossary : List GlossaryEntry
  contentStore : List (Int × String)
deriving DecidableEq, Repr

/-- Observables of one worker run, for stating the claims. -/
structure RunStats where
  llmCalls : Nat
  contentFetches : Nat
  processedOrder : List Int
  delays : List Nat
  trace : List Job
  finished : Bool
deriving DecidableEq, Repr

/-- Stats of a run whose loop never began. -/
def emptyStats : RunStats :=
  ⟨0, 0, [], [], [], true⟩

/-- The worker `processTranslationJob` (lines 21–256).  Firestore is
modelled as connected (none of the claims concerns the missing-Firestore
fatal path).  `settingsKeys` is the global `translatorApiKeys` list and
`envs` supplies the environment of each loop iteration in order. -/
def processTranslationJob (w : World) (settingsKeys : List String)
    (envs : List ChapterEnv) : World × RunStats :=
  match w.job with
  | none => (w, emptyStats)
  | some job =>
    -- if (!job || job.status !== 'active') return;
    if job.status ≠ JobStatus.active then (w, emptyStats)
    else
      match w.novel with
      | none =>
        -- novel gone: job → failed with one error log
        let job := { job with
          status := JobStatus.failed,
          logs := job.logs ++ [⟨"الرواية لم تعد موجودة", LogType.error⟩] }
        ({ w with job := some job }, emptyStats)
      | some novel =>
        let keys := effectiveKeys job settingsKeys
        if keys.isEmpty then
          -- no credentials: job → failed with one error log
          let job := { job with
            status := JobStatus.failed,
            logs := job.logs ++ [⟨"لا توجد مفاتيح API محفوظة.", LogType.error⟩] }
          ({ w with job := some job }, emptyStats)
        else
          let chaptersToProcess := sortChapters job.targetChapters
          let s0 : WorkerState :=
            { nid := novel.id, job := job, chapters := novel.chapters,
              glossary := w.glossary, contentStore := w.contentStore,
              keyIndex := 0, llmCalls := 0, contentFetches := 0,
              processedOrder := [], delays := [], tick := 0 }
          let r := runLoop envs chaptersToProcess s0
          -- line 249: status := 'completed' and a final success log,
          -- unconditionally after the loop exits (exhausted or broke)
          let fin := if r.finished then
              let s := { r.state with job := { r.state.job with status := JobStatus.completed } }
              pushLog s "🏁 اكتملت جميع الفصول!" LogType.success
            else r.state
          (⟨some fin.job, some { novel with chapters := fin.chapters },
              fin.glossary, fin.contentStore⟩,
            ⟨fin.llmCalls, fin.contentFetches, fin.processedOrder, fin.delays,
              r.trace.map (fun t => t.job), r.finished⟩)

/-- The `/api/translator/start` handler's job construction (lines 330–338)
with an explicit chapter list: `totalToTranslate` is fixed to the length of
the target list, counters start at the schema defaults. -/
def createJob (novelId : Nat) (targetChapters : List Int)
    (effKeys : List String) : Job :=
  { novelId := novelId
    targetChapters := targetChapters
    totalToTranslate := targetChapters.length
    translatedCount := 0
    currentChapter := 0
    status := JobStatus.active
    logs := [⟨"تم بدء المهمة (استهداف " ++ toString targetChapters.length ++
      " فصل) باستخدام " ++ toString effKeys.length ++ " مفتاح", LogType.info⟩]
    apiKeys := effKeys
    lastUpdate := 0 }

/-! ## Concrete scenarios (used by counterexamples and witnesses) -/

/-- A novel with a single chapter numbered 3. -/
def novelA : Novel := ⟨1, [⟨3, "Chapter Three"⟩]⟩

/-- An iteration in which everything succeeds and extraction mines nothing. -/
def envOk : ChapterEnv :=
  ⟨none, LlmResult.ok "نص مترجم", ExtractResult.ok none, none, none⟩

/-- Translation succeeds, the extraction call then fails. -/
def envExtractFail : ChapterEnv :=
  ⟨none, LlmResult.ok "نص مترجم", ExtractResult.err "boom", none, none⟩

/-- An external actor pauses the job before the status re-fetch. -/
def envPause : ChapterEnv :=
  ⟨some JobStatus.paused, LlmResult.ok "x", ExtractResult.ok none, none, none⟩

/-- The translation call rejects with a rate-limit message. -/
def env429 : ChapterEnv :=
  ⟨none, LlmResult.err "429 Too Many Requests", ExtractResult.ok none, none, none⟩

/-- Job targeting chapter 3 of `novelA`, whose source content is present. -/
def wA : World :=
  ⟨some (createJob 1 [3] ["k"]), some novelA, [], [(3, "hello world")]⟩

/-- Same, but the stored source content is the single character "a". -/
def wShort : World :=
  ⟨some (createJob 1 [3] ["k"]), some novelA, [], [(3, "a")]⟩

/-- Same job but already paused when the worker starts. -/
def wPausedStart : World :=
  ⟨some { createJob 1 [3] ["k"] with status := JobStatus.paused }, some novelA,
    [], [(3, "hello world")]⟩

/-- Job created with the unsorted target list `[5, 3, 4]`. -/
def wOrder : World :=
  ⟨some (createJob 1 [5, 3, 4] ["k"]),
    some ⟨1, [⟨3, "a"⟩, ⟨4, "b"⟩, ⟨5, "c"⟩]⟩, [],
    [(3, "xxx"), (4, "yyy"), (5, "zzz")]⟩

/-- Job whose two target chapters both have no stored content. -/
def wEmptyContent : World :=
  ⟨some (createJob 1 [1, 2] ["k"]), some ⟨1, [⟨1, "a"⟩, ⟨2, "b"⟩]⟩, [], []⟩

/-- The job record left in the store by a worker run (the job exists on
every path that starts from an existing job). -/
def finalJob (w : World) (keys : List String) (envs : List ChapterEnv) : Job :=
  ((processTranslationJob w keys envs).1.job).getD (createJob 0 [] [])

/-- Mid-run worker state corresponding to `wA` at the first iteration. -/
def sA : WorkerState :=
  { nid := 1, job := createJob 1 [3] ["k"], chapters := novelA.chapters,
    glossary := [], contentStore := [(3, "hello world")], keyIndex := 0,
    llmCalls := 0, contentFetches := 0, processedOrder := [], delays := [], tick := 0 }

/-- Worker state whose chapter-3 content is a whitespace-only string. -/
def sBlankContent : WorkerState := { sA with contentStore := [(3, " ")] }

/-- The state after the rate-limited first attempt at chapter 3 of `sA`. -/
def sRetry : WorkerState := (processChapter env429 3 sA).2

/-- Job created with no job-level keys, run with empty global keys. -/
def wNoKeys : World :=
  ⟨some (createJob 1 [3] []), some novelA, [], [(3, "hello world")]⟩

/-- No two glossary documents share the `(novelId, term)` key. -/
def uniqueKeys (g : List GlossaryEntry) : Prop :=
  g.Pairwise (fun a b => a.novelId ≠ b.novelId ∨ a.term ≠ b.term)

/-! ## Helper lemmas about the effect primitives -/

lemma pushLog_job_eq (s : WorkerState) (m : String) (t : LogType) :
    (pushLog s m t).job = { s.job with logs := s.job.logs ++ [⟨m, t⟩] } := rfl

lemma handleCatch_count (s : WorkerState) (n : Int) (tt m : String)
    (sf : Option String) :
    (handleCatch s n tt m sf).job.translatedCount = s.job.translatedCount := by
  unfold handleCatch pushLog
  split <;> (try split) <;> rfl

lemma handleCatch_total (s : WorkerState) (n : Int) (tt m : String)
    (sf : Option String) :
    (handleCatch s n tt m sf).job.totalToTranslate = s.job.totalToTranslate := by
  unfold handleCatch pushLog
  split <;> (try split) <;> rfl

lemma stepPersist_count_le (s : WorkerState) (n : Int) (tt : String)
    (sf : Option String) :
    (stepPersist s n tt sf).job.translatedCount ≤ s.job.translatedCount + 1 := by
  unfold stepPersist
  split
  · simp [handleCatch_count]
  · simp [pushLog]

lemma stepPersist_total (s : WorkerState) (n : Int) (tt : String)
    (sf : Option String) :
    (stepPersist s n tt sf).job.totalToTranslate = s.job.totalToTranslate := by
  unfold stepPersist
  split
  · simp [handleCatch_total]
  · simp [pushLog]

lemma afterTranslationOk_total (cenv : ChapterEnv) (n : Int)
    (s : WorkerState) (txt : String) :
    (afterTranslationOk cenv n s txt).job.totalToTranslate = s.job.totalToTranslate := by
  unfold afterTranslationOk
  dsimp only
  repeat' split
  all_goals simp [pushLog, handleCatch_total, stepPersist_total]

lemma afterTranslationOk_count_le (cenv : ChapterEnv) (n : Int)
    (s : WorkerState) (txt : String) :
    (afterTranslationOk cenv n s txt).job.translatedCount ≤ s.job.translatedCount + 1 := by
  unfold afterTranslationOk
  dsimp only
  repeat' split
  all_goals simp [pushLog, handleCatch_count, stepPersist_count_le]

/-- The loop body never changes `totalToTranslate`. -/
lemma processChapter_total (cenv : ChapterEnv) (n : Int) (s : WorkerState) :
    (processChapter cenv n s).2.job.totalToTranslate = s.job.totalToTranslate := by
  unfold processChapter
  dsimp only
  repeat' split
  all_goals simp [pushLog, afterTranslationOk_total]

/-- The loop body raises `translatedCount` by at most one. -/
lemma processChapter_count_le (cenv : ChapterEnv) (n : Int) (s : WorkerState) :
    (processChapter cenv n s).2.job.translatedCount ≤ s.job.translatedCount + 1 := by
  unfold processChapter
  dsimp only
  repeat' split
  all_goals simp [pushLog, afterTranslationOk_count_le]

/-- Unless the iteration took a `continue` exit (`next`), so on the
`break` and retry exits, `translatedCount` is unchanged. -/
lemma processChapter_fst_count (cenv : ChapterEnv) (n : Int) (s : WorkerState) :
    (processChapter cenv n s).1 = StepKind.next ∨
    (processChapter cenv n s).2.job.translatedCount = s.job.translatedCount := by
  unfold processChapter
  dsimp only
  repeat' split
  all_goals simp [pushLog]

/-- Worklist invariant of the chapter loop: if `translatedCount` plus the
remaining queue length is bounded by `totalToTranslate` (each queue slot can
yield at most one increment, and the rate-limit retry re-enqueues without
incrementing), then the bound `translatedCount ≤ totalToTranslate` holds at
the final state and at every state of the iteration trace. -/
lemma runLoop_inv (envs : List ChapterEnv) :
    ∀ (rest : List Int) (s : WorkerState),
      s.job.translatedCount + rest.length ≤ s.job.totalToTranslate →
      (runLoop envs rest s).state.job.translatedCount ≤
        (runLoop envs rest s).state.job.totalToTranslate ∧
      ∀ t ∈ (runLoop envs rest s).trace,
        t.job.translatedCount ≤ t.job.totalToTranslate := by
  induction envs with
  | nil =>
    intro rest s h
    cases rest with
    | nil =>
      refine ⟨?_, ?_⟩
      · simp only [runLoop]; omega
      · simp [runLoop]
    | cons n rest =>
      refine ⟨?_, ?_⟩
      · simp only [runLoop, List.length_cons] at h ⊢; omega
      · simp [runLoop]
  | cons cenv envs ih =>
    intro rest s h
    cases rest with
    | nil =>
      refine ⟨?_, ?_⟩
      · simp only [runLoop]; omega
      · simp [runLoop]
    | cons n rest =>
      have htot := processChapter_total cenv n s
      have hle := processChapter_count_le cenv n s
      have hfst := processChapter_fst_count cenv n s
      rcases hk : processChapter cenv n s with ⟨k, t⟩
      rw [hk] at htot hle hfst
      dsimp only at htot hle hfst
      simp only [List.length_cons] at h
      cases k with
      | broke =>
        have hcnt : t.job.translatedCount = s.job.translatedCount := by
          rcases hfst with h1 | h2
          · exact absurd h1 (by simp)
          · exact h2
        simp only [runLoop, hk]
        refine ⟨by omega, ?_⟩
        intro x hx
        simp only [List.mem_singleton] at hx
        subst hx
        omega
      | next =>
        have hinv : t.job.translatedCount + rest.length ≤ t.job.totalToTranslate := by
          omega
        have hrec := ih rest t hinv
        simp only [runLoop, hk]
        refine ⟨hrec.1, ?_⟩
        intro x hx
        simp only [List.mem_cons] at hx
        rcases hx with rfl | hx
        · omega
        · exact hrec.2 x hx
      | retry =>
        have hcnt : t.job.translatedCount = s.job.translatedCount := by
          rcases hfst with h1 | h2
          · exact absurd h1 (by simp)
          · exact h2
        have hinv : t.job.translatedCount + (n :: rest).length ≤ t.job.totalToTranslate := by
          simp only [List.length_cons]; omega
        have hrec := ih (n :: rest) t hinv
        simp only [runLoop, hk]
        refine ⟨hrec.1, ?_⟩
        intro x hx
        simp only [List.mem_cons] at hx
        rcases hx with rfl | hx
        · simp only [List.length_cons] at hinv; omega
        · exact hrec.2 x hx

/-! ## Further helper lemmas -/

lemma sortChapters_perm (l : List Int) : l.Perm (sortChapters l) :=
  (List.perm_insertionSort _ l).symm

lemma sortChapters_length (l : List Int) : (sortChapters l).length = l.length :=
  (List.perm_insertionSort _ l).length_eq

/-- C7: for a job as created by the `/api/translator/start` handler
(`translatedCount = 0`, `totalToTranslate = targetChapters.length`),
`translatedCount` never exceeds `totalToTranslate`: at job creation, at
every state of the worker's iteration trace (which includes runs whose
rate-limit retries re-enqueue chapter numbers into the in-memory queue),
and at the final job record. -/
theorem C7_translated_count_le_total
    (w : World) (nid : Nat) (tcs : List Int) (ks keys0 : List String)
    (envs : List ChapterEnv)
    (hw : w.job = some (createJob nid tcs ks)) :
    (createJob nid tcs ks).totalToTranslate = tcs.length ∧
    (createJob nid tcs ks).translatedCount = 0 ∧
    (∀ j ∈ (processTranslationJob w keys0 envs).2.trace,
        j.translatedCount ≤ j.totalToTranslate) ∧
    (∀ j, (processTranslationJob w keys0 envs).1.job = some j →
        j.translatedCount ≤ j.totalToTranslate) := by
  refine ⟨rfl, rfl, ?_⟩
  unfold processTranslationJob
  rw [hw]
  dsimp only
  rw [if_neg (by simp [createJob])]
  cases hn : w.novel with
  | none =>
    dsimp only
    refine ⟨by simp [emptyStats], ?_⟩
    intro j hj
    simp only [Option.some.injEq] at hj
    subst hj
    simp [createJob]
  | some novel =>
    dsimp only
    by_cases hk : (effectiveKeys (createJob nid tcs ks) keys0).isEmpty
    · rw [if_pos hk]
      refine ⟨by simp [emptyStats], ?_⟩
      intro j hj
      simp only [Option.some.injEq] at hj
      subst hj
      simp [createJob]
    · rw [if_neg hk]
      dsimp only
      have hinv := runLoop_inv envs (sortChapters (createJob nid tcs ks).targetChapters)
        { nid := novel.id, job := createJob nid tcs ks, chapters := novel.chapters,
          glossary := w.glossary, contentStore := w.contentStore,
          keyIndex := 0, llmCalls := 0, contentFetches := 0,
          processedOrder := [], delays := [], tick := 0 }
        (by simp [createJob, sortChapters_length])
      constructor
      · intro j hj
        simp only [List.mem_map] at hj
        obtain ⟨t, ht, rfl⟩ := hj
        exact hinv.2 t ht
      · intro j hj
        split at hj
        · simp only [pushLog, Option.some.injEq] at hj
          subst hj
          exact hinv.1
        · simp only [Option.some.injEq] at hj
          subst hj
          exact hinv.1

lemma storeGet_map_overwrite (n : Int) (t : String) :
    ∀ cs : List (Int × String), cs.any (fun p => p.1 == n) = true →
      storeGet (cs.map (fun p => if p.1 == n then (n, t) else p)) n = t := by
  intro cs h
  induction cs with
  | nil => simp at h
  | cons q rest ih =>
    by_cases hq : (q.1 == n) = true
    · simp [storeGet, List.find?, hq]
    · have hq' : (q.1 == n) = false := by simpa using hq
      have hr : rest.any (fun p => p.1 == n) = true := by
        simpa [List.any_cons, hq'] using h
      simpa [storeGet, List.find?, hq'] using ih hr

lemma storeGet_append_new (n : Int) (t : String) :
    ∀ cs : List (Int × String), cs.any (fun p => p.1 == n) = false →
      storeGet (cs ++ [(n, t)]) n = t := by
  intro cs h
  induction cs with
  | nil => simp [storeGet, List.find?]
  | cons q rest ih =>
    simp only [List.any_cons, Bool.or_eq_false_iff] at h
    simpa [storeGet, List.find?, h.1] using ih h.2

/-- Writing a chapter's content and reading it back returns the write. -/
lemma storeGet_storeSet_self (cs : List (Int × String)) (n : Int) (t : String) :
    storeGet (storeSet cs n t) n = t := by
  unfold storeSet
  split
  · exact storeGet_map_overwrite n t cs (by assumption)
  · rename_i h
    exact storeGet_append_new n t cs (Bool.eq_false_iff.mpr h)

/-- After the targeted title update, the chapter's metadata title reads back
as the written title (provided the chapter number is present). -/
lemma getTitle_setChapterTitle (n : Int) (t : String) :
    ∀ chs : List Chapter, (chs.find? (fun c => c.number == n)).isSome = true →
      getTitle (setChapterTitle chs n t) n = some t := by
  intro chs h
  induction chs with
  | nil => simp [List.find?] at h
  | cons c rest ih =>
    by_cases hc : (c.number == n) = true
    · simp [setChapterTitle, getTitle, List.find?, hc]
    · have hc' : (c.number == n) = false := by simpa using hc
      have hr : (rest.find? (fun c => c.number == n)).isSome = true := by
        simpa [List.find?, hc'] using h
      simpa [setChapterTitle, getTitle, List.find?, hc'] using ih hr

/-- C1 counterexample: chapter 3 of `wA` translates successfully and the
Term-Extraction call then fails.  The translated text is persisted, the
title placeholder is written and the failure is logged as a warning — but
`translatedCount` stays 0 and `currentChapter`/`lastUpdate` stay at their
defaults, contradicting the claim that persistence step 4 (the counter
increment and progress refresh) still occurs. -/
theorem C1_counterexample :
    (processTranslationJob wA [] [envExtractFail]).1.job =
      some (finalJob wA [] [envExtractFail]) ∧
    storeGet (processTranslationJob wA [] [envExtractFail]).1.contentStore 3 = "نص مترجم" ∧
    (processTranslationJob wA [] [envExtractFail]).1.novel =
      some ⟨1, [⟨3, "الفصل 3"⟩]⟩ ∧
    (finalJob wA [] [envExtractFail]).logs =
      [⟨"تم بدء المهمة (استهداف 1 فصل) باستخدام 1 مفتاح", LogType.info⟩,
       ⟨"1️⃣ جاري ترجمة الفصل 3...", LogType.info⟩,
       ⟨"2️⃣ جاري استخراج المصطلحات...", LogType.info⟩,
       ⟨"⚠️ تم حفظ الترجمة (فشل الاستخراج): boom", LogType.warning⟩,
       ⟨"🏁 اكتملت جميع الفصول!", LogType.success⟩] ∧
    (finalJob wA [] [envExtractFail]).translatedCount = 0 ∧
    (finalJob wA [] [envExtractFail]).currentChapter = 0 ∧
    (finalJob wA [] [envExtractFail]).lastUpdate = 0 := by
  decide

/-- C1 (amended): for every chapter whose Translation Stage call succeeds
with non-empty text, if the Term-Extraction Stage or the glossary upsert
then fails (and the content store itself is reachable), persistence steps
2–3 still occur — the translated text is written to the content store at
the chapter number and the metadata title is replaced with the generated
placeholder — and the failure is logged as a warning; but persistence step
4 does **not** occur: `translatedCount` is not incremented and
`currentChapter`/`lastUpdate` are not refreshed.  The loop then continues
with the job still `active`. -/
theorem C1_extraction_failure_persists_translation_only
    (s : WorkerState) (n : Int) (txt m : String)
    (er : ExtractResult) (uf : Option String)
    (hst : s.job.status = JobStatus.active)
    (hfind : (s.chapters.find? (fun c => c.number == n)).isSome = true)
    (hblank : isBlank (storeGet s.contentStore n) = false)
    (htxt : txt ≠ "")
    (hfail : er = ExtractResult.err m ∨
      (∃ terms, er = ExtractResult.ok terms ∧ uf = some m ∧
        ((terms.getD []).filter
          (fun t => t.term ≠ "" && t.translation ≠ "")).isEmpty = false)) :
    (processChapter ⟨none, LlmResult.ok txt, er, uf, none⟩ n s).1 = StepKind.next ∧
    storeGet (processChapter ⟨none, LlmResult.ok txt, er, uf, none⟩ n s).2.contentStore n = txt ∧
    getTitle (processChapter ⟨none, LlmResult.ok txt, er, uf, none⟩ n s).2.chapters n
      = some ("الفصل " ++ toString n) ∧
    (processChapter ⟨none, LlmResult.ok txt, er, uf, none⟩ n s).2.job.logs
      = s.job.logs ++
        [⟨"1️⃣ جاري ترجمة الفصل " ++ toString n ++ "...", LogType.info⟩,
         ⟨"2️⃣ جاري استخراج المصطلحات...", LogType.info⟩,
         ⟨"⚠️ تم حفظ الترجمة (فشل الاستخراج): " ++ m, LogType.warning⟩] ∧
    (processChapter ⟨none, LlmResult.ok txt, er, uf, none⟩ n s).2.job.translatedCount
      = s.job.translatedCount ∧
    (processChapter ⟨none, LlmResult.ok txt, er, uf, none⟩ n s).2.job.currentChapter
      = s.job.currentChapter ∧
    (processChapter ⟨none, LlmResult.ok txt, er, uf, none⟩ n s).2.job.lastUpdate
      = s.job.lastUpdate ∧
    (processChapter ⟨none, LlmResult.ok txt, er, uf, none⟩ n s).2.job.status = JobStatus.active := by
  obtain ⟨c, hc⟩ := Option.isSome_iff_exists.mp hfind
  rcases hfail with rfl | ⟨terms, rfl, rfl, hne⟩
  · refine ⟨?_, ?_, ?_, ?_, ?_, ?_, ?_, ?_⟩ <;>
      simp only [processChapter, afterTranslationOk, handleCatch, pushLog, hst, hc, hblank,
        ne_eq, not_true_eq_false, if_false, Bool.false_eq_true, htxt, not_false_eq_true,
        if_true] <;>
      first
        | rfl
        | exact storeGet_storeSet_self _ _ _
        | exact getTitle_setChapterTitle n _ _ (by simp [hc])
        | simp
  · refine ⟨?_, ?_, ?_, ?_, ?_, ?_, ?_, ?_⟩ <;>
      simp only [processChapter, afterTranslationOk, handleCatch, pushLog, hst, hc, hblank,
        hne, ne_eq, not_true_eq_false, if_false, Bool.false_eq_true, htxt, not_false_eq_true,
        if_true] <;>
      first
        | rfl
        | exact storeGet_storeSet_self _ _ _
        | exact getTitle_setChapterTitle n _ _ (by simp [hc])
        | simp

/-- Witness for `C1_extraction_failure_persists_translation_only` at
chapter 3 of `sA` with an extraction failure. -/
theorem C1_witness :
    (sA.job.status = JobStatus.active ∧
     (sA.chapters.find? (fun c => c.number == 3)).isSome = true ∧
     isBlank (storeGet sA.contentStore 3) = false ∧
     ("نص" : String) ≠ "") ∧
    storeGet (processChapter ⟨none, LlmResult.ok "نص", ExtractResult.err "boom", none, none⟩
        3 sA).2.contentStore 3 = "نص" ∧
    (processChapter ⟨none, LlmResult.ok "نص", ExtractResult.err "boom", none, none⟩
        3 sA).2.job.translatedCount = sA.job.translatedCount := by
  have h := C1_extraction_failure_persists_translation_only sA 3 "نص" "boom"
    (ExtractResult.err "boom") none rfl (by decide) (by decide) (by decide) (Or.inl rfl)
  exact ⟨⟨rfl, by decide, by decide, by decide⟩, h.2.1, h.2.2.2.2.1⟩

/-- C2 counterexample: the job of `wA` is externally paused before the first
chapter check.  The loop does break, but the unconditional post-loop update
(line 249) then marks the job `completed`, so the externally set `paused`
status is *not* left in place. -/
theorem C2_counterexample :
    (processTranslationJob wA [] [envPause]).2.finished = true ∧
    (processTranslationJob wA [] [envPause]).2.llmCalls = 0 ∧
    (processTranslationJob wA [] [envPause]).2.trace =
      [{ createJob 1 [3] ["k"] with status := JobStatus.paused }] ∧
    (finalJob wA [] [envPause]).status = JobStatus.completed ∧
    (finalJob wA [] [envPause]).status ≠ JobStatus.paused := by
  decide

/-- C2 (amended): if the job status re-fetched before a chapter is not
`active`, the loop breaks and the loop itself changes nothing beyond the
externally written status (no log entry, no `failed` mark, no progress
change); however the orchestrator then runs its unconditional final update,
so every finished run — broken or exhausted — ends with status `completed`,
overwriting an externally set pause/cancel status. -/
theorem C2_break_then_unconditional_completed :
    (∀ (cenv : ChapterEnv) (n : Int) (s : WorkerState) (st : JobStatus),
      cenv.extStatus = some st → st ≠ JobStatus.active →
      processChapter cenv n s =
        (StepKind.broke, { s with job := { s.job with status := st } })) ∧
    (∀ (w : World) (keys : List String) (envs : List ChapterEnv)
        (job : Job) (novel : Novel),
      w.job = some job → job.status = JobStatus.active → w.novel = some novel →
      (effectiveKeys job keys).isEmpty = false →
      (processTranslationJob w keys envs).2.finished = true →
      ∃ j, (processTranslationJob w keys envs).1.job = some j ∧
        j.status = JobStatus.completed) := by
  constructor
  · intro cenv n s st hext hst
    unfold processChapter
    rw [hext]
    simp [hst]
  · intro w keys envs job novel hw hact hn hke
    unfold processTranslationJob
    rw [hw]
    dsimp only
    rw [if_neg (by simp [hact])]
    rw [hn]
    dsimp only
    simp only [hke, Bool.false_eq_true, if_false]
    intro hfin
    rw [if_pos hfin]
    exact ⟨_, rfl, rfl⟩

/-- Witness for `C2_break_then_unconditional_completed`: part 1 at a pause
of `sA` before chapter 3, part 2 at a finished run of `wA`. -/
theorem C2_witness :
    (envPause.extStatus = some JobStatus.paused ∧
     JobStatus.paused ≠ JobStatus.active ∧
     wA.job = some (createJob 1 [3] ["k"]) ∧
     (createJob 1 [3] ["k"]).status = JobStatus.active ∧
     wA.novel = some novelA ∧
     (effectiveKeys (createJob 1 [3] ["k"]) []).isEmpty = false ∧
     (processTranslationJob wA [] [envOk]).2.finished = true) ∧
    processChapter envPause 3 sA =
      (StepKind.broke, { sA with job := { sA.job with status := JobStatus.paused } }) ∧
    ∃ j, (processTranslationJob wA [] [envOk]).1.job = some j ∧
      j.status = JobStatus.completed := by
  have h := C2_break_then_unconditional_completed
  exact ⟨⟨rfl, by decide, rfl, rfl, rfl, by decide, by decide⟩,
    h.1 envPause 3 sA JobStatus.paused rfl (by decide),
    h.2 wA [] [envOk] (createJob 1 [3] ["k"]) novelA rfl rfl rfl (by decide) (by decide)⟩

/-- C3 counterexample: chapter 3 of `wShort` has the 1-character source
content "a" — far below any stub-guarding minimum viable length (the spec's
end-to-end scenario uses 50 characters).  The worker nevertheless passes it
to the Translation Stage (both LLM calls are made) and increments
`translatedCount`: the only skip condition in the code is
empty/whitespace-only content. -/
theorem C3_counterexample :
    storeGet wShort.contentStore 3 = "a" ∧
    ("a" : String).length = 1 ∧ (1 : Nat) < 50 ∧
    (processTranslationJob wShort [] [envOk]).2.llmCalls = 2 ∧
    (finalJob wShort [] [envOk]).translatedCount = 1 := by
  decide

/-- C3 (amended): a chapter whose fetched source content is empty or
whitespace-only (`trim().length === 0` — there is no larger minimum-length
threshold) is skipped with exactly one warning log entry: no LLM call is
made for it, `translatedCount` is not incremented, and nothing else in the
state changes beyond the fetch counter and the iteration record. -/
theorem C3_blank_content_skipped
    (s : WorkerState) (n : Int) (cenv : ChapterEnv) (c : Chapter)
    (hext : cenv.extStatus = none)
    (hst : s.job.status = JobStatus.active)
    (hfind : s.chapters.find? (fun ch => ch.number == n) = some c)
    (hblank : isBlank (storeGet s.contentStore n) = true) :
    processChapter cenv n s =
      (StepKind.next,
        { s with
          processedOrder := s.processedOrder ++ [n],
          contentFetches := s.contentFetches + 1,
          job := { s.job with logs := s.job.logs ++
            [⟨"تخطي الفصل " ++ toString n ++ ": المحتوى غير موجود في السيرفر (Firestore)",
              LogType.warning⟩] } }) ∧
    (processChapter cenv n s).2.llmCalls = s.llmCalls ∧
    (processChapter cenv n s).2.job.translatedCount = s.job.translatedCount := by
  have hmain : processChapter cenv n s =
      (StepKind.next,
        { s with
          processedOrder := s.processedOrder ++ [n],
          contentFetches := s.contentFetches + 1,
          job := { s.job with logs := s.job.logs ++
            [⟨"تخطي الفصل " ++ toString n ++ ": المحتوى غير موجود في السيرفر (Firestore)",
              LogType.warning⟩] } }) := by
    unfold processChapter
    rw [hext]
    dsimp only
    rw [if_neg (by simp [hst])]
    rw [hfind]
    dsimp only
    rw [if_pos hblank]
    rfl
  rw [hmain]
  exact ⟨rfl, rfl, rfl⟩

/-- Witness for `C3_blank_content_skipped` at chapter 3 of
`sBlankContent`. -/
theorem C3_witness :
    (envOk.extStatus = none ∧
     sBlankContent.job.status = JobStatus.active ∧
     sBlankContent.chapters.find? (fun ch => ch.number == 3) =
       some ⟨3, "Chapter Three"⟩ ∧
     isBlank (storeGet sBlankContent.contentStore 3) = true) ∧
    (processChapter envOk 3 sBlankContent).2.llmCalls = sBlankContent.llmCalls ∧
    (processChapter envOk 3 sBlankContent).2.job.translatedCount =
      sBlankContent.job.translatedCount := by
  have h := C3_blank_content_skipped sBlankContent 3 envOk ⟨3, "Chapter Three"⟩
    rfl rfl (by decide) (by decide)
  exact ⟨⟨rfl, rfl, by decide, by decide⟩, h.2.1, h.2.2⟩

/-- C4: when the Translation Stage rejects with a message containing "429"
or "quota", the iteration (1) advances the credential cursor, (2) records
the fixed 5000 ms cooldown, (3) logs a warning, and exits as `retry`
without incrementing `translatedCount` and with the job still `active`;
(4) a `retry` exit makes the loop re-run the *same* chapter number at the
head of the worklist; and (5) concretely, chapter 3 of `wA` under a 429
failure followed by a success is processed twice as `[3, 3]`, with the
cooldown recorded and `translatedCount` incremented only for the successful
attempt. -/
theorem C4_rate_limit_rotate_retry :
    (∀ (s : WorkerState) (n : Int) (cenv : ChapterEnv) (c : Chapter) (msg : String),
      cenv.extStatus = none →
      cenv.transResult = LlmResult.err msg →
      (strContains msg "429" || strContains msg "quota") = true →
      s.job.status = JobStatus.active →
      s.chapters.find? (fun ch => ch.number == n) = some c →
      isBlank (storeGet s.contentStore n) = false →
      processChapter cenv n s =
        (StepKind.retry,
          { s with
            processedOrder := s.processedOrder ++ [n],
            contentFetches := s.contentFetches + 1,
            llmCalls := s.llmCalls + 1,
            keyIndex := s.keyIndex + 1,
            delays := s.delays ++ [5000],
            job := { s.job with logs := s.job.logs ++
              [⟨"1️⃣ جاري ترجمة الفصل " ++ toString n ++ "...", LogType.info⟩,
               ⟨"⚠️ ضغط على المفتاح، تبديل وإعادة المحاولة...", LogType.warning⟩] } })) ∧
    (∀ (cenv : ChapterEnv) (envs : List ChapterEnv) (n : Int) (rest : List Int)
        (s s' : WorkerState),
      processChapter cenv n s = (StepKind.retry, s') →
      runLoop (cenv :: envs) (n :: rest) s =
        ⟨(runLoop envs (n :: rest) s').state, (runLoop envs (n :: rest) s').finished,
          s' :: (runLoop envs (n :: rest) s').trace⟩) ∧
    ((processTranslationJob wA [] [env429, envOk]).2.processedOrder = [3, 3] ∧
     (processTranslationJob wA [] [env429, envOk]).2.delays = [5000, 2000] ∧
     (finalJob wA [] [env429, envOk]).translatedCount = 1) := by
  refine ⟨?_, ?_, by decide⟩
  · intro s n cenv c msg hext htr h429 hst hfind hblank
    unfold processChapter
    rw [hext]
    dsimp only
    rw [if_neg (by simp [hst])]
    rw [hfind]
    dsimp only
    rw [if_neg (by simp [hblank])]
    rw [htr]
    dsimp only
    rw [if_pos h429]
    simp [pushLog, List.append_assoc]
  · intro cenv envs n rest s s' hproc
    simp only [runLoop, hproc]

/-- Witness for `C4_rate_limit_rotate_retry`: the 429 attempt at chapter 3
of `sA` exits as `retry` and the loop re-runs chapter 3 next. -/
theorem C4_witness :
    (env429.extStatus = none ∧
     env429.transResult = LlmResult.err "429 Too Many Requests" ∧
     (strContains "429 Too Many Requests" "429" ||
       strContains "429 Too Many Requests" "quota") = true ∧
     sA.job.status = JobStatus.active ∧
     sA.chapters.find? (fun ch => ch.number == 3) = some ⟨3, "Chapter Three"⟩ ∧
     isBlank (storeGet sA.contentStore 3) = false ∧
     processChapter env429 3 sA = (StepKind.retry, sRetry)) ∧
    runLoop [env429, envOk] [3] sA =
      ⟨(runLoop [envOk] [3] sRetry).state, (runLoop [envOk] [3] sRetry).finished,
        sRetry :: (runLoop [envOk] [3] sRetry).trace⟩ := by
  have h := C4_rate_limit_rotate_retry
  exact ⟨⟨rfl, rfl, by decide, rfl, by decide, by decide, by decide⟩,
    h.2.1 env429 [envOk] 3 [] sA sRetry (by decide)⟩

/-- C5 counterexample: a job that is `paused` when the worker starts.  The
claim says every fatal setup condition (including job missing/not active)
transitions the job to `failed` with one log entry; the code instead
returns immediately — the status stays `paused` and no log entry is
appended. -/
theorem C5_counterexample :
    processTranslationJob wPausedStart [] [envOk] = (wPausedStart, emptyStats) ∧
    (finalJob wPausedStart [] [envOk]).status = JobStatus.paused ∧
    (finalJob wPausedStart [] [envOk]).status ≠ JobStatus.failed ∧
    (finalJob wPausedStart [] [envOk]).logs.length = 1 := by
  decide

/-- C5 (amended): at worker start, (1) a missing job and (2) a job that is
not `active` cause an immediate return — no status change, no log entry,
no loop iteration, zero LLM calls; (3) a missing novel and (4) an empty
effective credential list (job-level and global keys both empty) transition
the job to `failed` with exactly one appended error log entry, the loop
never begins and zero LLM calls are made. -/
theorem C5_fatal_setup_behaviour :
    (∀ (w : World) (keys : List String) (envs : List ChapterEnv),
      w.job = none → processTranslationJob w keys envs = (w, emptyStats)) ∧
    (∀ (w : World) (keys : List String) (envs : List ChapterEnv) (job : Job),
      w.job = some job → job.status ≠ JobStatus.active →
      processTranslationJob w keys envs = (w, emptyStats)) ∧
    (∀ (w : World) (keys : List String) (envs : List ChapterEnv) (job : Job),
      w.job = some job → job.status = JobStatus.active → w.novel = none →
      processTranslationJob w keys envs =
        ({ w with job := some { job with status := JobStatus.failed, logs := job.logs ++ [⟨"الرواية لم تعد موجودة", LogType.error⟩] } }, emptyStats)) ∧
    (∀ (w : World) (keys : List String) (envs : List ChapterEnv) (job : Job)
        (novel : Novel),
      w.job = some job → job.status = JobStatus.active → w.novel = some novel →
      effectiveKeys job keys = [] →
      processTranslationJob w keys envs =
        ({ w with job := some { job with status := JobStatus.failed, logs := job.logs ++ [⟨"لا توجد مفاتيح API محفوظة.", LogType.error⟩] } }, emptyStats)) := by
  refine ⟨?_, ?_, ?_, ?_⟩
  · intro w keys envs hw
    unfold processTranslationJob
    rw [hw]
  · intro w keys envs job hw hstat
    unfold processTranslationJob
    rw [hw]
    dsimp only
    rw [if_pos hstat]
  · intro w keys envs job hw hact hn
    unfold processTranslationJob
    rw [hw]
    dsimp only
    rw [if_neg (by simp [hact])]
    rw [hn]
  · intro w keys envs job novel hw hact hn hkeys
    unfold processTranslationJob
    rw [hw]
    dsimp only
    rw [if_neg (by simp [hact])]
    rw [hn]
    dsimp only
    rw [if_pos (by simp [hkeys])]

/-- Witness for `C5_fatal_setup_behaviour`: the paused-at-start job of
`wPausedStart` and the credential-less job of `wNoKeys`. -/
theorem C5_witness :
    (wPausedStart.job = some { createJob 1 [3] ["k"] with status := JobStatus.paused } ∧
     ({ createJob 1 [3] ["k"] with status := JobStatus.paused } : Job).status ≠
       JobStatus.active ∧
     wNoKeys.job = some (createJob 1 [3] []) ∧
     (createJob 1 [3] []).status = JobStatus.active ∧
     wNoKeys.novel = some novelA ∧
     effectiveKeys (createJob 1 [3] []) [] = []) ∧
    processTranslationJob wPausedStart [] [envOk] = (wPausedStart, emptyStats) ∧
    processTranslationJob wNoKeys [] [envOk] =
      ({ wNoKeys with job := some { createJob 1 [3] [] with status := JobStatus.failed, logs := (createJob 1 [3] []).logs ++ [⟨"لا توجد مفاتيح API محفوظة.", LogType.error⟩] } }, emptyStats) := by
  have h := C5_fatal_setup_behaviour
  exact ⟨⟨rfl, by decide, rfl, rfl, rfl, by decide⟩,
    h.2.1 wPausedStart [] [envOk] _ rfl (by decide),
    h.2.2.2 wNoKeys [] [envOk] (createJob 1 [3] []) novelA rfl rfl rfl (by decide)⟩

lemma glossMatches_eq_true {nid : Nat} {t : String} {e : GlossaryEntry} :
    glossMatches nid t e = true ↔ e.novelId = nid ∧ e.term = t := by
  simp [glossMatches]

lemma upsertAuto_cons_pos {nid : Nat} {t : String} {e : GlossaryEntry}
    (rest : List GlossaryEntry) (tr : String) (he : glossMatches nid t e = true) :
    upsertAuto (e :: rest) nid t tr = { e with translation := tr } :: rest := by
  simp [upsertAuto, he]

lemma upsertAuto_cons_neg {nid : Nat} {t : String} {e : GlossaryEntry}
    (rest : List GlossaryEntry) (tr : String) (he : ¬ glossMatches nid t e = true) :
    upsertAuto (e :: rest) nid t tr = e :: upsertAuto rest nid t tr := by
  simp [upsertAuto, he]

lemma upsertManual_cons_pos {nid : Nat} {t : String} {e : GlossaryEntry}
    (rest : List GlossaryEntry) (tr : String) (he : glossMatches nid t e = true) :
    upsertManual (e :: rest) nid t tr =
      { e with translation := tr, autoGenerated := false } :: rest := by
  simp [upsertManual, he]

lemma upsertManual_cons_neg {nid : Nat} {t : String} {e : GlossaryEntry}
    (rest : List GlossaryEntry) (tr : String) (he : ¬ glossMatches nid t e = true) :
    upsertManual (e :: rest) nid t tr = e :: upsertManual rest nid t tr := by
  simp [upsertManual, he]

lemma mem_upsertAuto {g : List GlossaryEntry} {nid : Nat} {t tr : String}
    {x : GlossaryEntry} (hx : x ∈ upsertAuto g nid t tr) :
    (x.novelId = nid ∧ x.term = t) ∨ x ∈ g := by
  induction g with
  | nil =>
    simp only [upsertAuto, List.mem_singleton] at hx
    subst hx
    exact Or.inl ⟨rfl, rfl⟩
  | cons e rest ih =>
    by_cases he : glossMatches nid t e = true
    · rw [upsertAuto_cons_pos rest tr he, List.mem_cons] at hx
      rcases hx with rfl | hx
      · exact Or.inl ⟨(glossMatches_eq_true.mp he).1, (glossMatches_eq_true.mp he).2⟩
      · exact Or.inr (List.mem_cons_of_mem e hx)
    · rw [upsertAuto_cons_neg rest tr he, List.mem_cons] at hx
      rcases hx with rfl | hx
      · exact Or.inr (List.mem_cons_self x rest)
      · rcases ih hx with h | h
        · exact Or.inl h
        · exact Or.inr (List.mem_cons_of_mem e h)

lemma mem_upsertManual {g : List GlossaryEntry} {nid : Nat} {t tr : String}
    {x : GlossaryEntry} (hx : x ∈ upsertManual g nid t tr) :
    (x.novelId = nid ∧ x.term = t) ∨ x ∈ g := by
  induction g with
  | nil =>
    simp only [upsertManual, List.mem_singleton] at hx
    subst hx
    exact Or.inl ⟨rfl, rfl⟩
  | cons e rest ih =>
    by_cases he : glossMatches nid t e = true
    · rw [upsertManual_cons_pos rest tr he, List.mem_cons] at hx
      rcases hx with rfl | hx
      · exact Or.inl ⟨(glossMatches_eq_true.mp he).1, (glossMatches_eq_true.mp he).2⟩
      · exact Or.inr (List.mem_cons_of_mem e hx)
    · rw [upsertManual_cons_neg rest tr he, List.mem_cons] at hx
      rcases hx with rfl | hx
      · exact Or.inr (List.mem_cons_self x rest)
      · rcases ih hx with h | h
        · exact Or.inl h
        · exact Or.inr (List.mem_cons_of_mem e h)

lemma uniqueKeys_upsertAuto {g : List GlossaryEntry} (nid : Nat) (t tr : String)
    (h : uniqueKeys g) : uniqueKeys (upsertAuto g nid t tr) := by
  induction g with
  | nil => simp [upsertAuto, uniqueKeys]
  | cons e rest ih =>
    rcases List.pairwise_cons.mp h with ⟨he, hrest⟩
    by_cases hm : glossMatches nid t e = true
    · rw [uniqueKeys, upsertAuto_cons_pos rest tr hm]
      exact List.pairwise_cons.mpr ⟨fun b hb => he b hb, hrest⟩
    · rw [uniqueKeys, upsertAuto_cons_neg rest tr hm]
      refine List.pairwise_cons.mpr ⟨?_, ih hrest⟩
      intro b hb
      rcases mem_upsertAuto hb with ⟨hb1, hb2⟩ | hb2
      · have hne : ¬ (e.novelId = nid ∧ e.term = t) := fun hc =>
          hm (glossMatches_eq_true.mpr hc)
        rw [hb1, hb2]
        by_cases h1 : e.novelId = nid
        · exact Or.inr (fun h2 => hne ⟨h1, h2⟩)
        · exact Or.inl h1
      · exact he b hb2

lemma uniqueKeys_upsertManual {g : List GlossaryEntry} (nid : Nat) (t tr : String)
    (h : uniqueKeys g) : uniqueKeys (upsertManual g nid t tr) := by
  induction g with
  | nil => simp [upsertManual, uniqueKeys]
  | cons e rest ih =>
    rcases List.pairwise_cons.mp h with ⟨he, hrest⟩
    by_cases hm : glossMatches nid t e = true
    · rw [uniqueKeys, upsertManual_cons_pos rest tr hm]
      exact List.pairwise_cons.mpr ⟨fun b hb => he b hb, hrest⟩
    · rw [uniqueKeys, upsertManual_cons_neg rest tr hm]
      refine List.pairwise_cons.mpr ⟨?_, ih hrest⟩
      intro b hb
      rcases mem_upsertManual hb with ⟨hb1, hb2⟩ | hb2
      · have hne : ¬ (e.novelId = nid ∧ e.term = t) := fun hc =>
          hm (glossMatches_eq_true.mpr hc)
        rw [hb1, hb2]
        by_cases h1 : e.novelId = nid
        · exact Or.inr (fun h2 => hne ⟨h1, h2⟩)
        · exact Or.inl h1
      · exact he b hb2

lemma glossFind_upsertAuto (g : List GlossaryEntry) (nid : Nat) (t tr : String) :
    glossFind (upsertAuto g nid t tr) nid t =
      some ⟨nid, t, tr, ((glossFind g nid t).map GlossaryEntry.autoGenerated).getD true⟩ := by
  induction g with
  | nil => simp [glossFind, upsertAuto, List.find?, glossMatches]
  | cons e rest ih =>
    by_cases he : glossMatches nid t e = true
    · obtain ⟨en, et, etr, ea⟩ := e
      obtain ⟨h1, h2⟩ := glossMatches_eq_true.mp he
      dsimp only at h1 h2
      subst h1
      subst h2
      rw [upsertAuto_cons_pos rest tr he]
      simp [glossFind, List.find?, glossMatches]
    · have he' : glossMatches nid t e = false := by simpa using he
      rw [upsertAuto_cons_neg rest tr he]
      simpa [glossFind, List.find?, he'] using ih

lemma glossFind_upsertManual (g : List GlossaryEntry) (nid : Nat) (t tr : String) :
    glossFind (upsertManual g nid t tr) nid t = some ⟨nid, t, tr, false⟩ := by
  induction g with
  | nil => simp [glossFind, upsertManual, List.find?, glossMatches]
  | cons e rest ih =>
    by_cases he : glossMatches nid t e = true
    · obtain ⟨en, et, etr, ea⟩ := e
      obtain ⟨h1, h2⟩ := glossMatches_eq_true.mp he
      dsimp only at h1 h2
      subst h1
      subst h2
      rw [upsertManual_cons_pos rest tr he]
      simp [glossFind, List.find?, glossMatches]
    · have he' : glossMatches nid t e = false := by simpa using he
      rw [upsertManual_cons_neg rest tr he]
      simpa [glossFind, List.find?, he'] using ih

lemma filter_upsertAuto (g : List GlossaryEntry) (nid : Nat) (t tr : String) :
    (upsertAuto g nid t tr).filter (fun e => !(glossMatches nid t e)) =
      g.filter (fun e => !(glossMatches nid t e)) := by
  induction g with
  | nil => simp [upsertAuto, List.filter, glossMatches]
  | cons e rest ih =>
    by_cases he : glossMatches nid t e = true
    · have hm : glossMatches nid t { e with translation := tr } = true := by
        simpa [glossMatches] using he
      rw [upsertAuto_cons_pos rest tr he]
      simp [List.filter, hm, he]
    · have he' : glossMatches nid t e = false := by simpa using he
      rw [upsertAuto_cons_neg rest tr he]
      simp [List.filter, he', ih]

lemma upsertAuto_idem (g : List GlossaryEntry) (nid : Nat) (t tr : String) :
    upsertAuto (upsertAuto g nid t tr) nid t tr = upsertAuto g nid t tr := by
  induction g with
  | nil => simp [upsertAuto, glossMatches]
  | cons e rest ih =>
    by_cases he : glossMatches nid t e = true
    · have hm : glossMatches nid t { e with translation := tr } = true := by
        simpa [glossMatches] using he
      rw [upsertAuto_cons_pos rest tr he, upsertAuto_cons_pos rest tr hm]
    · rw [upsertAuto_cons_neg rest tr he, upsertAuto_cons_neg _ tr he, ih]

/-- C6: glossary upsert semantics.  For a store with unique
`(novelId, term)` keys: (1) the pipeline upsert is idempotent; (2) and (3)
both the pipeline upsert and the manual-endpoint upsert preserve key
uniqueness (no duplicate is ever created); (4) after a pipeline upsert the
entry under the key holds the new translation, and its `autoGenerated` flag
is `true` exactly when the entry was freshly inserted, otherwise whatever
it was before (updates touch only the `translation` field); (5) all entries
under other keys are untouched; (6) the manual endpoint always leaves
`autoGenerated = false`, so `autoGenerated = true` can only originate from
a pipeline insert; (7) matching is case-sensitive: upserting "Frodo" over a
store holding "frodo" creates a second entry instead of matching it. -/
theorem C6_glossary_upsert_idempotent_unique
    (g : List GlossaryEntry) (nid : Nat) (t tr : String)
    (h : uniqueKeys g) :
    upsertAuto (upsertAuto g nid t tr) nid t tr = upsertAuto g nid t tr ∧
    uniqueKeys (upsertAuto g nid t tr) ∧
    uniqueKeys (upsertManual g nid t tr) ∧
    glossFind (upsertAuto g nid t tr) nid t =
      some ⟨nid, t, tr, ((glossFind g nid t).map GlossaryEntry.autoGenerated).getD true⟩ ∧
    (upsertAuto g nid t tr).filter (fun e => !(glossMatches nid t e)) =
      g.filter (fun e => !(glossMatches nid t e)) ∧
    glossFind (upsertManual g nid t tr) nid t = some ⟨nid, t, tr, false⟩ ∧
    (upsertAuto [⟨1, "frodo", "x", false⟩] 1 "Frodo" "y").length = 2 :=
  ⟨upsertAuto_idem g nid t tr, uniqueKeys_upsertAuto nid t tr h,
    uniqueKeys_upsertManual nid t tr h, glossFind_upsertAuto g nid t tr,
    filter_upsertAuto g nid t tr, glossFind_upsertManual g nid t tr, by decide⟩

/-- Witness for `C6_glossary_upsert_idempotent_unique` on a one-entry store. -/
theorem C6_witness :
    uniqueKeys [(⟨1, "sword", "سيف", false⟩ : GlossaryEntry)] ∧
    upsertAuto (upsertAuto [⟨1, "sword", "سيف", false⟩] 1 "sword" "نصل") 1 "sword" "نصل" =
      upsertAuto [⟨1, "sword", "سيف", false⟩] 1 "sword" "نصل" ∧
    glossFind (upsertAuto [⟨1, "sword", "سيف", false⟩] 1 "sword" "نصل") 1 "sword" =
      some ⟨1, "sword", "نصل",
        ((glossFind [⟨1, "sword", "سيف", false⟩] 1 "sword").map
          GlossaryEntry.autoGenerated).getD true⟩ ∧
    glossFind (upsertManual [⟨1, "sword", "سيف", false⟩] 1 "sword" "نصل") 1 "sword" =
      some ⟨1, "sword", "نصل", false⟩ := by
  have h := C6_glossary_upsert_idempotent_unique [⟨1, "sword", "سيف", false⟩]
    1 "sword" "نصل" (by simp [uniqueKeys])
  exact ⟨by simp [uniqueKeys], h.1, h.2.2.2.1, h.2.2.2.2.2.1⟩

/-- C8: the target-chapter list is stored as given at creation, the worker
iterates `targetChapters.sort((a, b) => a - b)` — an ascending numeric sort
(sorted and a permutation of the stored list) — and, concretely, a job
created with `[5, 3, 4]` processes chapters in the order `[3, 4, 5]`. -/
theorem C8_ascending_order :
    (∀ (nid : Nat) (tcs : List Int) (ks : List String),
      (createJob nid tcs ks).targetChapters = tcs) ∧
    (∀ l : List Int, (sortChapters l).Sorted (· ≤ ·) ∧ l.Perm (sortChapters l)) ∧
    (processTranslationJob wOrder [] [envOk, envOk, envOk]).2.processedOrder =
      [3, 4, 5] := by
  refine ⟨fun _ _ _ => rfl, fun l => ⟨?_, sortChapters_perm l⟩, by decide⟩
  exact List.sorted_insertionSort _ l

/-- C9: a target chapter number absent from the novel's chapter metadata is
skipped with exactly one warning log entry, before the content fetch: no
Firestore fetch, no LLM call, no `translatedCount` change, no status
change, and no change to the content store, the glossary or the chapter
metadata; the loop continues with the next chapter (`next`). -/
theorem C9_missing_chapter_skipped
    (s : WorkerState) (n : Int) (cenv : ChapterEnv)
    (hext : cenv.extStatus = none)
    (hst : s.job.status = JobStatus.active)
    (hfind : s.chapters.find? (fun c => c.number == n) = none) :
    processChapter cenv n s =
      (StepKind.next,
        { s with
          processedOrder := s.processedOrder ++ [n],
          job := { s.job with logs := s.job.logs ++
            [⟨"فصل " ++ toString n ++ " غير موجود في الفهرس", LogType.warning⟩] } }) ∧
    (processChapter cenv n s).2.llmCalls = s.llmCalls ∧
    (processChapter cenv n s).2.contentFetches = s.contentFetches ∧
    (processChapter cenv n s).2.job.translatedCount = s.job.translatedCount ∧
    (processChapter cenv n s).2.job.status = JobStatus.active ∧
    (processChapter cenv n s).2.contentStore = s.contentStore ∧
    (processChapter cenv n s).2.glossary = s.glossary ∧
    (processChapter cenv n s).2.chapters = s.chapters := by
  have hmain : processChapter cenv n s =
      (StepKind.next,
        { s with
          processedOrder := s.processedOrder ++ [n],
          job := { s.job with logs := s.job.logs ++
            [⟨"فصل " ++ toString n ++ " غير موجود في الفهرس", LogType.warning⟩] } }) := by
    unfold processChapter
    rw [hext]
    dsimp only
    rw [if_neg (by simp [hst])]
    rw [hfind]
    rfl
  rw [hmain]
  exact ⟨rfl, rfl, rfl, rfl, hst, rfl, rfl, rfl⟩

/-- Witness for `C9_missing_chapter_skipped`: chapter 99 is absent from
`sA`'s novel. -/
theorem C9_witness :
    (envOk.extStatus = none ∧
     sA.job.status = JobStatus.active ∧
     sA.chapters.find? (fun c => c.number == 99) = none) ∧
    (processChapter envOk 99 sA).2.llmCalls = sA.llmCalls ∧
    (processChapter envOk 99 sA).2.contentFetches = sA.contentFetches ∧
    (processChapter envOk 99 sA).2.job.translatedCount = sA.job.translatedCount := by
  have h := C9_missing_chapter_skipped sA 99 envOk rfl rfl (by decide)
  exact ⟨⟨rfl, rfl, by decide⟩, h.2.1, h.2.2.1, h.2.2.2.1⟩

/-- C10: whenever the loop exits without a fuel cutoff (all target chapters
exhausted, or a break — here restricted to runs whose per-chapter status
checks all still see `active`, so no break occurs), the final unconditional
update marks the job `completed` no matter how many chapters were
translated.  Concretely, a job of 2 chapters whose stored contents are both
missing ends `completed` with `translatedCount = 0 ≠ 2 = totalToTranslate`
and zero LLM calls, so `completed` does not imply
`translatedCount = totalToTranslate`. -/
theorem C10_normal_exit_completed :
    (∀ (w : World) (keys : List String) (envs : List ChapterEnv)
        (job : Job) (novel : Novel),
      w.job = some job → job.status = JobStatus.active → w.novel = some novel →
      (effectiveKeys job keys).isEmpty = false →
      (∀ cenv ∈ envs, cenv.extStatus = none) →
      (processTranslationJob w keys envs).2.finished = true →
      ∃ j, (processTranslationJob w keys envs).1.job = some j ∧
        j.status = JobStatus.completed) ∧
    ((processTranslationJob wEmptyContent [] [envOk, envOk]).2.finished = true ∧
     (finalJob wEmptyContent [] [envOk, envOk]).status = JobStatus.completed ∧
     (finalJob wEmptyContent [] [envOk, envOk]).translatedCount = 0 ∧
     (finalJob wEmptyContent [] [envOk, envOk]).totalToTranslate = 2 ∧
     (finalJob wEmptyContent [] [envOk, envOk]).translatedCount ≠
       (finalJob wEmptyContent [] [envOk, envOk]).totalToTranslate ∧
     (processTranslationJob wEmptyContent [] [envOk, envOk]).2.llmCalls = 0) := by
  constructor
  · intro w keys envs job novel hw hact hn hke _ hfin
    unfold processTranslationJob at hfin ⊢
    rw [hw] at hfin ⊢
    dsimp only at hfin ⊢
    rw [if_neg (by simp [hact])] at hfin ⊢
    rw [hn] at hfin ⊢
    dsimp only at hfin ⊢
    simp only [hke, Bool.false_eq_true, if_false] at hfin ⊢
    rw [if_pos hfin]
    exact ⟨_, rfl, rfl⟩
  · decide

/-- Witness for the quantified part of `C10_normal_exit_completed`, at the
all-chapters-skipped run of `wEmptyContent`. -/
theorem C10_witness :
    (wEmptyContent.job = some (createJob 1 [1, 2] ["k"]) ∧
     (createJob 1 [1, 2] ["k"]).status = JobStatus.active ∧
     wEmptyContent.novel = some ⟨1, [⟨1, "a"⟩, ⟨2, "b"⟩]⟩ ∧
     (effectiveKeys (createJob 1 [1, 2] ["k"]) []).isEmpty = false ∧
     (∀ cenv ∈ [envOk, envOk], cenv.extStatus = none) ∧
     (processTranslationJob wEmptyContent [] [envOk, envOk]).2.finished = true) ∧
    ∃ j, (processTranslationJob wEmptyContent [] [envOk, envOk]).1.job = some j ∧
      j.status = JobStatus.completed := by
  have h := C10_normal_exit_completed
  exact ⟨⟨rfl, rfl, rfl, by decide, by decide, by decide⟩,
    h.1 wEmptyContent [] [envOk, envOk] (createJob 1 [1, 2] ["k"])
      ⟨1, [⟨1, "a"⟩, ⟨2, "b"⟩]⟩ rfl rfl rfl (by decide) (by decide) (by decide)⟩

/-- Witness for `C7_translated_count_le_total` at a one-chapter run of
`wA`. -/
theorem C7_witness :
    wA.job = some (createJob 1 [3] ["k"]) ∧
    (finalJob wA [] [envOk]).translatedCount ≤
      (finalJob wA [] [envOk]).totalToTranslate := by
  have h := C7_translated_count_le_total wA 1 [3] ["k"] [] [envOk] rfl
  exact ⟨rfl, h.2.2.2 (finalJob wA [] [envOk]) (by decide)⟩
